import Mathlib

/-!
Verification of the playback / crossfade / lyric-sync / persistence core of
the BeautyMuisc single-page music player.  The definitions below are a
shallow embedding of the TypeScript source (`src/index.tsx` and the unnamed
app variants, notably `src/unnamed/part_000`, which carries the crossfade
volume ramp).  Machine numbers are modelled as rationals, the browser's
IndexedDB record store as an id-keyed list, and the React component state as
explicit record types transformed by the event handlers.
-/

namespace BeautyMusic

/-- One lyric line, `{ time: number; text: string }` (src/index.tsx lines
15-18).  A negative `time` marks an unsynced line. -/
structure LyricLine where
  time : ℚ
  text : String
  deriving DecidableEq, Repr

/-- Origin tag of a track, the `source` field of `Song`
(src/index.tsx line 29).  The TypeScript value `'local'` is rendered as
`locl` because `local` is a reserved word in Lean. -/
inductive Source where
  | locl
  | server
  | youtube
  | ai
  | searched
  | zen
  deriving DecidableEq, Repr

/-- An opaque binary payload standing for a browser `Blob`. -/
structure Blob where
  bytes : List ℕ
  deriving DecidableEq, Repr

/-- A lyric-source citation, `{ title: string, uri: string }`
(src/index.tsx line 33). -/
structure SourceCite where
  title : String
  uri : String
  deriving DecidableEq, Repr

/-- The `Song` record (src/index.tsx lines 20-34). -/
structure Song where
  id : String
  title : String
  artist : String
  album : String
  duration : ℚ
  cover : String
  src : String
  color : Option String := none
  source : Option Source := none
  fileBlob : Option Blob := none
  lyrics : Option (List LyricLine) := none
  lyricsSources : Option (List SourceCite) := none
  deriving DecidableEq, Repr

/-! ## Crossfade volume ramp (src/unnamed/part_000 lines 394-431)

The playback effect, entered with `crossfadeTransitioning` set, mutes the
primary channel, starts it, and arms a 40-step interval timer over 4000 ms.
Each tick sets the incoming (primary) volume to `Math.min(1, progress)` and
the outgoing (crossfade) volume to `Math.max(0, 1 - progress)` with
`progress = step / STEPS`. -/

/-- `FADE_DURATION = 4000` (milliseconds), src/unnamed/part_000 line 401. -/
def FADE_DURATION : ℚ := 4000

/-- `STEPS = 40`, src/unnamed/part_000 line 402. -/
def STEPS : ℕ := 40

/-- `INTERVAL = FADE_DURATION / STEPS` (100 ms), src/unnamed/part_000
line 403. -/
def INTERVAL : ℚ := FADE_DURATION / (STEPS : ℚ)

/-- Incoming-channel volume at ramp step `step`:
`Math.min(1, step / STEPS)` (src/unnamed/part_000 line 409). -/
def incomingVolume (step : ℕ) : ℚ := min 1 ((step : ℚ) / (STEPS : ℚ))

/-- Outgoing-channel volume at ramp step `step`:
`Math.max(0, 1 - step / STEPS)` (src/unnamed/part_000 line 410). -/
def outgoingVolume (step : ℕ) : ℚ := max 0 (1 - (step : ℚ) / (STEPS : ℚ))

/-! ## Crossfade trigger (src/index.tsx lines 596-608)

`handleTimeUpdate` runs on every position tick of the primary audio element.
Unless a seek drag is in progress it reads the position and duration and
fires `triggerCrossfade()` exactly when
`dur > 10 && (dur - cur) < 4 && !isCrossfading.current && isPlaying`. -/

/-- Whether a position tick of `handleTimeUpdate` calls `triggerCrossfade`
(src/index.tsx lines 597-607). -/
def crossfadeTriggers (dragging : Bool) (dur cur : ℚ)
    (isCrossfading isPlaying : Bool) : Bool :=
  !dragging &&
    (decide (10 < dur) && decide (dur - cur < 4) && !isCrossfading && isPlaying)

/-- C1: during a crossfade, for every ramp step `k` from 1 to 40, the
incoming volume is `min 1 (k / 40)`, the outgoing volume is
`max 0 (1 - k / 40)`, their sum is exactly 1, and across steps
(`j ≤ k`) the incoming volume is non-decreasing while the outgoing volume is
non-increasing. -/
theorem crossfade_volume_law (j k : ℕ) (_hj : 1 ≤ j) (hjk : j ≤ k)
    (hk : k ≤ STEPS) :
    incomingVolume k + outgoingVolume k = 1 ∧
    incomingVolume j ≤ incomingVolume k ∧
    outgoingVolume k ≤ outgoingVolume j := by
  have hS : ((STEPS : ℕ) : ℚ) = 40 := by norm_num [STEPS]
  have hk40 : (k : ℚ) ≤ 40 := by
    have : (k : ℚ) ≤ (STEPS : ℚ) := by exact_mod_cast hk
    simpa [hS] using this
  have hjk40 : (j : ℚ) ≤ (k : ℚ) := by exact_mod_cast hjk
  have hkdiv : (k : ℚ) / 40 ≤ 1 := by linarith
  have hjdiv : (j : ℚ) / 40 ≤ (k : ℚ) / 40 := by linarith
  have hjdiv1 : (j : ℚ) / 40 ≤ 1 := le_trans hjdiv hkdiv
  have hout : (0 : ℚ) ≤ 1 - (k : ℚ) / 40 := by linarith
  have houtj : (0 : ℚ) ≤ 1 - (j : ℚ) / 40 := by linarith
  refine ⟨?_, ?_, ?_⟩
  · simp only [incomingVolume, outgoingVolume, hS]
    rw [min_eq_right hkdiv, max_eq_right hout]
    ring
  · simp only [incomingVolume, hS]
    rw [min_eq_right hkdiv, min_eq_right hjdiv1]
    exact hjdiv
  · simp only [outgoingVolume, hS]
    rw [max_eq_right hout, max_eq_right houtj]
    linarith

/-- Witness for C1 at the concrete steps `j = 20`, `k = 40`. -/
theorem crossfade_volume_law_witness :
    incomingVolume 40 + outgoingVolume 40 = 1 ∧
    incomingVolume 20 ≤ incomingVolume 40 ∧
    outgoingVolume 40 ≤ outgoingVolume 20 :=
  crossfade_volume_law 20 40 (by decide) (by decide) (by decide)

/-- C2: on a position tick while playing (and not mid-drag), a crossfade
begins if and only if `duration > 10`, `duration - position < 4`, and no
crossfade is already in progress; concretely, with duration 12 s nothing has
triggered at position 7.9 s but the trigger fires at position 8.1 s, and any
duration at most 10 s (such as 9 s) never triggers. -/
theorem crossfade_trigger_iff (dur pos : ℚ) (cf : Bool) :
    (crossfadeTriggers false dur pos cf true = true ↔
      (10 < dur ∧ dur - pos < 4 ∧ cf = false)) ∧
    crossfadeTriggers false 12 (79 / 10) false true = false ∧
    crossfadeTriggers false 12 (81 / 10) false true = true ∧
    (dur ≤ 10 → crossfadeTriggers false dur pos cf true = false) := by
  refine ⟨?_, by norm_num [crossfadeTriggers], by norm_num [crossfadeTriggers], ?_⟩
  · simp [crossfadeTriggers, and_assoc]
  · intro hdur
    simp [crossfadeTriggers, not_lt.mpr hdur]

/-- Witness for C2 at duration 12 s, position 8.1 s, no crossfade
in progress. -/
theorem crossfade_trigger_iff_witness :
    crossfadeTriggers false 12 (81 / 10) false true = true :=
  (crossfade_trigger_iff 12 (81 / 10) false).2.2.1

/-! ## Crossfade completion (src/unnamed/part_000 lines 394-431, 520-529)

`triggerCrossfade` hands the old track to the crossfade (outgoing) audio
element at full volume and advances to the next track; the playback effect
then starts the primary (incoming) element muted and arms the interval
timer.  Each tick increments `step` and applies the volume ramp; when
`step >= STEPS` the timer is cleared, the outgoing element is paused, its
`src` is released (set to the empty string), and the `isCrossfading` flag is
dropped. -/

/-- One audio element: whether it is playing, its volume, and its `src`
locator. -/
structure Channel where
  playing : Bool
  volume : ℚ
  src : String
  deriving DecidableEq, Repr

/-- State of the two audio channels and the crossfade bookkeeping refs
during a fade (src/unnamed/part_000 lines 394-431). -/
structure FadeState where
  primary : Channel
  crossfade : Channel
  isCrossfading : Bool
  step : ℕ
  timerActive : Bool
  deriving DecidableEq, Repr

/-- State at the moment the fade timer is armed: `triggerCrossfade`
(src/unnamed/part_000 lines 520-529) has moved the outgoing track's `src`
to the crossfade element at volume 1 and started it, set `isCrossfading`,
and advanced to the next song; the playback effect (lines 394-400) has set
the primary element's volume to 0, started it on the incoming track, and
armed the interval with `step = 0`. -/
def fadeStart (incomingSrc outgoingSrc : String) : FadeState where
  primary := { playing := true, volume := 0, src := incomingSrc }
  crossfade := { playing := true, volume := 1, src := outgoingSrc }
  isCrossfading := true
  step := 0
  timerActive := true

/-- One tick of the `fadeInterval` timer (src/unnamed/part_000
lines 406-419).  A cleared timer fires no more ticks. -/
def fadeTick (s : FadeState) : FadeState :=
  if s.timerActive = false then s
  else
    let step := s.step + 1
    let progress : ℚ := (step : ℚ) / (STEPS : ℚ)
    let s1 : FadeState :=
      { s with
        step := step
        primary := { s.primary with volume := min 1 progress }
        crossfade := { s.crossfade with volume := max 0 (1 - progress) } }
    if STEPS ≤ step then
      { s1 with
        timerActive := false
        crossfade := { s1.crossfade with playing := false, src := "" }
        isCrossfading := false }
    else s1

/-- Helper for C3: from any state whose timer is armed and which has `k ≥ 1`
ticks left to reach step `STEPS`, running those `k` ticks finishes the fade:
timer cleared, outgoing channel stopped at volume 0 with its locator
released, `isCrossfading` dropped, incoming volume 1, and the incoming
channel's playing state and locator untouched. -/
theorem fadeTick_run_completes :
    ∀ (k : ℕ) (s : FadeState), s.timerActive = true → s.step + k = STEPS →
      1 ≤ k →
      (fadeTick^[k] s).timerActive = false ∧
      (fadeTick^[k] s).crossfade.playing = false ∧
      (fadeTick^[k] s).crossfade.src = "" ∧
      (fadeTick^[k] s).crossfade.volume = 0 ∧
      (fadeTick^[k] s).isCrossfading = false ∧
      (fadeTick^[k] s).primary.volume = 1 ∧
      (fadeTick^[k] s).primary.playing = s.primary.playing ∧
      (fadeTick^[k] s).primary.src = s.primary.src := by
  intro k
  induction k with
  | zero => intro s _ _ h1; exact absurd h1 (by decide)
  | succ k ih =>
    intro s htimer hstep _
    rw [Function.iterate_succ_apply]
    by_cases hk : k = 0
    · subst hk
      have hs : s.step = 39 := by
        have : s.step + 1 = 40 := by simpa [STEPS] using hstep
        omega
      simp only [Function.iterate_zero, id_eq]
      unfold fadeTick
      rw [htimer]
      simp only [Bool.true_eq_false, if_false, hs]
      norm_num [STEPS]
    · have hk1 : 1 ≤ k := by omega
      have hlt : s.step + 1 < STEPS := by
        simp only [STEPS] at hstep ⊢; omega
      have htick : fadeTick s =
          { s with
            step := s.step + 1
            primary := { s.primary with
              volume := min 1 ((s.step + 1 : ℕ) / (STEPS : ℚ)) }
            crossfade := { s.crossfade with
              volume := max 0 (1 - (s.step + 1 : ℕ) / (STEPS : ℚ)) } } := by
        unfold fadeTick
        rw [htimer]
        simp only [Bool.true_eq_false, if_false]
        rw [if_neg (by omega)]
      rw [htick]
      have := ih { s with
          step := s.step + 1
          primary := { s.primary with
            volume := min 1 ((s.step + 1 : ℕ) / (STEPS : ℚ)) }
          crossfade := { s.crossfade with
            volume := max 0 (1 - (s.step + 1 : ℕ) / (STEPS : ℚ)) } }
        htimer (by simp only [STEPS] at hstep ⊢; omega) hk1
      simpa using this

/-- C3: running the full 40-step ramp from the armed state stops the
outgoing channel, releases its locator, clears the crossfading flag, and
leaves exactly one channel active (the incoming one, playing at
volume 1, with the outgoing one stopped at volume 0). -/
theorem crossfade_completion (incomingSrc outgoingSrc : String) :
    (fadeTick^[STEPS] (fadeStart incomingSrc outgoingSrc)).crossfade.playing
        = false ∧
    (fadeTick^[STEPS] (fadeStart incomingSrc outgoingSrc)).crossfade.src
        = "" ∧
    (fadeTick^[STEPS] (fadeStart incomingSrc outgoingSrc)).isCrossfading
        = false ∧
    (fadeTick^[STEPS] (fadeStart incomingSrc outgoingSrc)).timerActive
        = false ∧
    (fadeTick^[STEPS] (fadeStart incomingSrc outgoingSrc)).primary.playing
        = true ∧
    (fadeTick^[STEPS] (fadeStart incomingSrc outgoingSrc)).primary.volume
        = 1 ∧
    (fadeTick^[STEPS] (fadeStart incomingSrc outgoingSrc)).crossfade.volume
        = 0 := by
  have h := fadeTick_run_completes STEPS (fadeStart incomingSrc outgoingSrc)
    rfl rfl (by decide)
  exact ⟨h.2.1, h.2.2.1, h.2.2.2.2.1, h.1, by rw [h.2.2.2.2.2.2.1]; rfl,
    h.2.2.2.2.2.1, h.2.2.2.1⟩

/-- Witness for C3 with concrete locators for the two channels. -/
theorem crossfade_completion_witness :
    (fadeTick^[STEPS] (fadeStart "next.mp3" "old.mp3")).crossfade.playing
        = false ∧
    (fadeTick^[STEPS] (fadeStart "next.mp3" "old.mp3")).isCrossfading
        = false ∧
    (fadeTick^[STEPS] (fadeStart "next.mp3" "old.mp3")).primary.volume = 1 :=
  ⟨(crossfade_completion "next.mp3" "old.mp3").1,
   (crossfade_completion "next.mp3" "old.mp3").2.2.1,
   (crossfade_completion "next.mp3" "old.mp3").2.2.2.2.2.1⟩

/-! ## Lyric synchronization (src/index.tsx lines 575-590)

`syncLyrics(cur)` first checks `lyrics.some(l => l.time >= 0)`; when no line
is synced nothing happens.  Otherwise it scans the lines in source order,
remembering the index of every line with `0 <= time <= cur` and breaking out
of the loop at the first line with `time > cur`; the highlighted index is
updated only when the scan produced an index (`!== -1`) different from the
current one. -/

/-- `lyrics.some(l => l.time >= 0)` (src/index.tsx line 576). -/
def hasSyncedLyrics (lines : List LyricLine) : Bool :=
  lines.any fun l => decide (0 ≤ l.time)

/-- The scan loop of `syncLyrics` (src/index.tsx lines 579-585): `i` is the
index of the head of the remaining list and `acc` the `newActiveIndex`
accumulated so far; the second branch is the loop's `break`. -/
def syncScanFrom (cur : ℚ) : List LyricLine → ℤ → ℤ → ℤ
  | [], _, acc => acc
  | l :: ls, i, acc =>
    if 0 ≤ l.time ∧ l.time ≤ cur then syncScanFrom cur ls (i + 1) i
    else if cur < l.time then acc
    else syncScanFrom cur ls (i + 1) acc

/-- The `newActiveIndex` computed by `syncLyrics`, starting from `-1`. -/
def newActiveIndex (lines : List LyricLine) (cur : ℚ) : ℤ :=
  syncScanFrom cur lines 0 (-1)

/-- The whole of `syncLyrics` as a function from the previous highlighted
index to the next one (src/index.tsx lines 575-590). -/
def syncLyrics (lines : List LyricLine) (cur : ℚ) (activeLyricIndex : ℤ) :
    ℤ :=
  if hasSyncedLyrics lines then
    let n := newActiveIndex lines cur
    if n ≠ -1 ∧ n ≠ activeLyricIndex then n else activeLyricIndex
  else activeLyricIndex

/-- Modelled from the spec's words for comparison with `syncScanFrom`
(claim C4): the same scan without the `break`, so that the result is the
index of the genuinely last line, in source order, whose timestamp is
non-negative and at most the position. -/
def specScanFrom (cur : ℚ) : List LyricLine → ℤ → ℤ → ℤ
  | [], _, acc => acc
  | l :: ls, i, acc =>
    if 0 ≤ l.time ∧ l.time ≤ cur then specScanFrom cur ls (i + 1) i
    else specScanFrom cur ls (i + 1) acc

/-- Modelled from the spec's words (claim C4): the active index is the last
line, scanning in source order, whose timestamp is non-negative and at most
the position; `-1` when there is none. -/
def specActiveIndex (lines : List LyricLine) (cur : ℚ) : ℤ :=
  specScanFrom cur lines 0 (-1)

/-- Helper: a tail all of whose timestamps exceed the position contributes
nothing to the spec scan. -/
theorem specScanFrom_of_forall_gt (cur : ℚ) :
    ∀ (ls : List LyricLine) (i acc : ℤ), (∀ l ∈ ls, cur < l.time) →
      specScanFrom cur ls i acc = acc := by
  intro ls
  induction ls with
  | nil => intro i acc _; rfl
  | cons l ls ih =>
    intro i acc h
    have hl : cur < l.time := h l (List.mem_cons_self l ls)
    have : ¬(0 ≤ l.time ∧ l.time ≤ cur) := fun hc => absurd hc.2 (not_le.mpr hl)
    simp only [specScanFrom, if_neg this]
    exact ih (i + 1) acc fun x hx => h x (List.mem_cons_of_mem l hx)

/-- Helper: a scan over lines none of which is a candidate
(`0 ≤ time ≤ cur`) leaves the accumulator untouched; this holds for the
code's scan with its `break` as well as for the spec's scan. -/
theorem scanFrom_of_no_candidate (cur : ℚ) :
    ∀ (ls : List LyricLine) (i acc : ℤ),
      (∀ l ∈ ls, ¬(0 ≤ l.time ∧ l.time ≤ cur)) →
      syncScanFrom cur ls i acc = acc ∧ specScanFrom cur ls i acc = acc := by
  intro ls
  induction ls with
  | nil => intro i acc _; exact ⟨rfl, rfl⟩
  | cons l ls ih =>
    intro i acc h
    have hl := h l (List.mem_cons_self l ls)
    have htail := fun x hx => h x (List.mem_cons_of_mem l hx)
    constructor
    · simp only [syncScanFrom, if_neg hl]
      by_cases hbr : cur < l.time
      · rw [if_pos hbr]
      · rw [if_neg hbr]
        exact (ih (i + 1) acc htail).1
    · simp only [specScanFrom, if_neg hl]
      exact (ih (i + 1) acc htail).2

/-- Helper: on a list whose timestamps are non-decreasing in source order,
the code's scan (with its early `break`) agrees with the spec's scan. -/
theorem syncScanFrom_eq_specScanFrom (cur : ℚ) :
    ∀ (ls : List LyricLine) (i acc : ℤ),
      ls.Pairwise (fun a b => a.time ≤ b.time) →
      syncScanFrom cur ls i acc = specScanFrom cur ls i acc := by
  intro ls
  induction ls with
  | nil => intro i acc _; rfl
  | cons l ls ih =>
    intro i acc hp
    rw [List.pairwise_cons] at hp
    by_cases hc : 0 ≤ l.time ∧ l.time ≤ cur
    · simp only [syncScanFrom, specScanFrom, if_pos hc]
      exact ih (i + 1) i hp.2
    · simp only [syncScanFrom, specScanFrom, if_neg hc]
      by_cases hbr : cur < l.time
      · rw [if_pos hbr]
        exact (specScanFrom_of_forall_gt cur ls (i + 1) acc
          fun x hx => lt_of_lt_of_le hbr (hp.1 x hx)).symm
      · rw [if_neg hbr]
        exact ih (i + 1) acc hp.2

/-- C4 counterexample: the claim quantifies over every lyric line list, but
on a list whose timestamps are not sorted the loop's `break` stops the scan
early: for lines timed 5, 20, 3 at position 10 the code highlights index 0
while the last line with timestamp at most 10 is index 2. -/
theorem syncLyrics_counterexample :
    syncLyrics [⟨5, "a"⟩, ⟨20, "b"⟩, ⟨3, "c"⟩] 10 (-1) = 0 ∧
    specActiveIndex [⟨5, "a"⟩, ⟨20, "b"⟩, ⟨3, "c"⟩] 10 = 2 ∧
    syncLyrics [⟨5, "a"⟩, ⟨20, "b"⟩, ⟨3, "c"⟩] 10 (-1) ≠
      specActiveIndex [⟨5, "a"⟩, ⟨20, "b"⟩, ⟨3, "c"⟩] 10 := by
  refine ⟨?_, ?_, ?_⟩ <;>
    norm_num [syncLyrics, hasSyncedLyrics, newActiveIndex, specActiveIndex,
      syncScanFrom, specScanFrom]

/-- C4 amended: for a lyric line list whose timestamps are non-decreasing in
source order (fetched lyrics are sorted by timestamp before being attached,
src/index.tsx line 1005): with no synced line, resolution never fires;
otherwise the computed index is exactly the last line, in source order,
whose timestamp is non-negative and at most the position (negative lines are
skipped), the highlighted index becomes that index whenever one exists, and
when the position precedes every timestamped line the highlighted index is
left unchanged. -/
theorem syncLyrics_amended (lines : List LyricLine) (cur : ℚ) (active : ℤ)
    (hsorted : lines.Pairwise fun a b => a.time ≤ b.time) :
    (hasSyncedLyrics lines = false → syncLyrics lines cur active = active) ∧
    newActiveIndex lines cur = specActiveIndex lines cur ∧
    (specActiveIndex lines cur ≠ -1 →
      syncLyrics lines cur active = specActiveIndex lines cur) ∧
    ((∀ l ∈ lines, 0 ≤ l.time → cur < l.time) →
      specActiveIndex lines cur = -1 ∧ syncLyrics lines cur active = active)
    := by
  have heq : newActiveIndex lines cur = specActiveIndex lines cur :=
    syncScanFrom_eq_specScanFrom cur lines 0 (-1) hsorted
  refine ⟨fun h => by simp [syncLyrics, h], heq, fun hne => ?_, fun hpre => ?_⟩
  · have hsync : hasSyncedLyrics lines = true := by
      by_contra hfalse
      have hno : ∀ l ∈ lines, ¬(0 ≤ l.time ∧ l.time ≤ cur) := by
        intro l hl hc
        have : hasSyncedLyrics lines = true := by
          simp only [hasSyncedLyrics, List.any_eq_true, decide_eq_true_eq]
          exact ⟨l, hl, hc.1⟩
        exact hfalse this
      exact hne ((scanFrom_of_no_candidate cur lines 0 (-1) hno).2)
    simp only [syncLyrics, hsync, if_true, heq]
    by_cases hact : specActiveIndex lines cur = active
    · simp [hact]
    · simp [hne, hact]
  · have hno : ∀ l ∈ lines, ¬(0 ≤ l.time ∧ l.time ≤ cur) := by
      intro l hl hc
      exact absurd hc.2 (not_le.mpr (hpre l hl hc.1))
    have hspec := (scanFrom_of_no_candidate cur lines 0 (-1) hno).2
    refine ⟨hspec, ?_⟩
    simp only [syncLyrics]
    by_cases hsync : hasSyncedLyrics lines = true
    · simp only [hsync, if_true, heq]
      simp [specActiveIndex] at hspec
      simp [specActiveIndex, hspec]
    · simp [Bool.not_eq_true] at hsync
      simp [hsync]

/-- Witness for C4's amended theorem on the spec's own sorted test vector,
lines timed 0, 6, 12 at position 7: the computed index agrees with the
spec's last-matching-line rule and the highlighted line becomes index 1. -/
theorem syncLyrics_amended_witness :
    newActiveIndex [⟨0, "a"⟩, ⟨6, "b"⟩, ⟨12, "c"⟩] 7 =
      specActiveIndex [⟨0, "a"⟩, ⟨6, "b"⟩, ⟨12, "c"⟩] 7 ∧
    syncLyrics [⟨0, "a"⟩, ⟨6, "b"⟩, ⟨12, "c"⟩] 7 0 =
      specActiveIndex [⟨0, "a"⟩, ⟨6, "b"⟩, ⟨12, "c"⟩] 7 := by
  have h := syncLyrics_amended [⟨0, "a"⟩, ⟨6, "b"⟩, ⟨12, "c"⟩] 7 0
    (by norm_num [List.pairwise_cons])
  refine ⟨h.2.1, h.2.2.1 ?_⟩
  norm_num [specActiveIndex, specScanFrom]

/-! ## Lyric fetch resolution (src/index.tsx lines 920-1031)

`generateLyricsForSong` closes over `currentSong` when the fetch starts.
When the provider's response resolves, the handler sorts the parsed lines by
timestamp, builds `updatedSong` from the *captured* song, and then runs
`setLyrics`, `setLyricsSources`, `setPlaylist(... map ...)` and
`setCurrentSong(updatedSong)` unconditionally — there is no check that the
captured song is still the current one. -/

/-- Stable sort by timestamp, `generatedLyrics.sort((a, b) => a.time -
b.time)` (src/index.tsx line 1005): insertion that keeps the source order of
equal timestamps. -/
def insertByTime (x : LyricLine) : List LyricLine → List LyricLine
  | [] => [x]
  | y :: ys => if y.time ≤ x.time then y :: insertByTime x ys else x :: y :: ys

/-- Stable sort by timestamp for a whole line list (src/index.tsx
line 1005). -/
def sortByTime : List LyricLine → List LyricLine
  | [] => []
  | x :: xs => insertByTime x (sortByTime xs)

/-- The slice of the component state touched by the lyric-fetch resolution
handler. -/
structure FetchAppState where
  currentSong : Option Song
  lyrics : List LyricLine
  lyricsSources : List SourceCite
  playlist : List Song
  deriving DecidableEq, Repr

/-- The resolution continuation of `generateLyricsForSong` (src/index.tsx
lines 1004-1012): `captured` is the `currentSong` value closed over when the
fetch started, `generated` the parsed provider response, `sources` the
grounding citations. -/
def lyricsFetchResolve (captured : Song) (generated : List LyricLine)
    (sources : List SourceCite) (s : FetchAppState) : FetchAppState :=
  let sorted := sortByTime generated
  let updatedSong :=
    { captured with lyrics := some sorted, lyricsSources := some sources }
  { currentSong := some updatedSong
    lyrics := sorted
    lyricsSources := sources
    playlist := s.playlist.map fun t =>
      if t.id == updatedSong.id then updatedSong else t }

/-- A concrete track A, for exercising the lyric-fetch race. -/
def trackA : Song :=
  { id := "A", title := "Track A", artist := "Artist A", album := "Album A"
    duration := 100, cover := "coverA", src := "srcA" }

/-- A concrete track B, distinct from `trackA`. -/
def trackB : Song :=
  { id := "B", title := "Track B", artist := "Artist B", album := "Album B"
    duration := 200, cover := "coverB", src := "srcB" }

/-- C5 evaluated at the failing input: a fetch captured track A, the user
switched the current track to B, and the fetch then resolved.  Track A's
playlist entry receives the fetched lyrics and track B's entry is untouched
— but the handler also forces the current track back to (the updated) A and
replaces the displayed lyrics with A's, contradicting the claim that B stays
current with its displayed lyrics unchanged. -/
theorem stale_fetch_overwrites_current :
    (lyricsFetchResolve trackA [⟨1, "la"⟩] []
        { currentSong := some trackB, lyrics := [⟨0, "b0"⟩]
          lyricsSources := [], playlist := [trackA, trackB] }).currentSong ≠
      some trackB ∧
    (lyricsFetchResolve trackA [⟨1, "la"⟩] []
        { currentSong := some trackB, lyrics := [⟨0, "b0"⟩]
          lyricsSources := [], playlist := [trackA, trackB] }).currentSong =
      some { trackA with lyrics := some [⟨1, "la"⟩], lyricsSources := some [] } ∧
    (lyricsFetchResolve trackA [⟨1, "la"⟩] []
        { currentSong := some trackB, lyrics := [⟨0, "b0"⟩]
          lyricsSources := [], playlist := [trackA, trackB] }).lyrics ≠
      [⟨0, "b0"⟩] ∧
    ((lyricsFetchResolve trackA [⟨1, "la"⟩] []
        { currentSong := some trackB, lyrics := [⟨0, "b0"⟩]
          lyricsSources := [], playlist := [trackA, trackB] }).playlist.map
        Song.lyrics) =
      [some [⟨1, "la"⟩], none] := by
  refine ⟨?_, ?_, ?_, ?_⟩ <;>
    simp [lyricsFetchResolve, sortByTime, insertByTime, trackA, trackB]

/-! ## Seeking (src/index.tsx lines 719-737, src/unnamed/part_000
lines 592-603)

`handleSeekRaw(time)` plays a click when the integral second changed,
assigns `time` to the active channel's position, and mirrors it into the
`currentTime` state.  No bound of any kind is applied to `time`. -/

/-- The slice of state touched by `handleSeekRaw`: the reported position,
the audio element's position, the known duration and the click-sound
bookkeeping ref. -/
structure SeekState where
  currentTime : ℚ
  audioCurrentTime : ℚ
  duration : ℚ
  lastClickValue : ℚ
  deriving DecidableEq, Repr

/-- `handleSeekRaw` (src/index.tsx lines 719-732): the YouTube and HTML5
branches apply the same raw `time` to the channel position and to the
reported `currentTime`. -/
def handleSeekRaw (s : SeekState) (time : ℚ) : SeekState :=
  let s1 := if ⌊time⌋ ≠ ⌊s.lastClickValue⌋
    then { s with lastClickValue := time } else s
  { s1 with audioCurrentTime := time, currentTime := time }

/-- C6 counterexample: seeking to −5 with duration 100 leaves the reported
position at −5, outside `[0, duration]` — the handler performs no
clamping. -/
theorem seek_no_clamp_counterexample :
    (handleSeekRaw
        { currentTime := 0, audioCurrentTime := 0, duration := 100
          lastClickValue := 0 } (-5)).currentTime = -5 ∧
    ¬(0 ≤ (handleSeekRaw
        { currentTime := 0, audioCurrentTime := 0, duration := 100
          lastClickValue := 0 } (-5)).currentTime) := by
  norm_num [handleSeekRaw]

/-- C6 amended: the seek operation applies the raw target without clamping —
both the channel position and the reported position become exactly the
target, so the reported position lies in `[0, duration]` precisely when the
target already does. -/
theorem handleSeekRaw_applies_raw_target (s : SeekState) (time : ℚ) :
    (handleSeekRaw s time).currentTime = time ∧
    (handleSeekRaw s time).audioCurrentTime = time ∧
    (handleSeekRaw s time).duration = s.duration ∧
    (0 ≤ time → time ≤ s.duration →
      0 ≤ (handleSeekRaw s time).currentTime ∧
      (handleSeekRaw s time).currentTime ≤ s.duration) := by
  unfold handleSeekRaw
  by_cases h : ⌊time⌋ ≠ ⌊s.lastClickValue⌋ <;>
    simp [h] <;> exact fun h1 h2 => ⟨h1, h2⟩

/-- Witness for C6's amended theorem: a seek to 30 with duration 100 reports
exactly 30, which lies in `[0, 100]`. -/
theorem handleSeekRaw_applies_raw_target_witness :
    (handleSeekRaw
        { currentTime := 0, audioCurrentTime := 0, duration := 100
          lastClickValue := 0 } 30).currentTime = 30 ∧
    0 ≤ (handleSeekRaw
        { currentTime := 0, audioCurrentTime := 0, duration := 100
          lastClickValue := 0 } 30).currentTime ∧
    (handleSeekRaw
        { currentTime := 0, audioCurrentTime := 0, duration := 100
          lastClickValue := 0 } 30).currentTime ≤ 100 := by
  have h := handleSeekRaw_applies_raw_target
    { currentTime := 0, audioCurrentTime := 0, duration := 100
      lastClickValue := 0 } 30
  exact ⟨h.1, (h.2.2.2 (by norm_num) (by norm_num)).1,
    (h.2.2.2 (by norm_num) (by norm_num)).2⟩

/-! ## Next / previous track (src/index.tsx lines 679-693)

`nextSong` and `prevSong` locate the current track's id in the playlist with
`findIndex` (−1 when absent), step the index by ±1 modulo the playlist
length using JS `%` (truncated remainder), select that entry and set the
playing flag. -/

/-- The transport slice touched by `nextSong` / `prevSong`. -/
structure PlayerState where
  playlist : List Song
  currentSong : Option Song
  isPlaying : Bool
  deriving DecidableEq, Repr

/-- JS `Array.prototype.findIndex` over the tail starting at index `j`:
the index of the first match, or −1. -/
def jsFindIndexAux (q : Song → Bool) : List Song → ℤ → ℤ
  | [], _ => -1
  | x :: xs, j => if q x then j else jsFindIndexAux q xs (j + 1)

/-- JS `playlist.findIndex(q)`. -/
def jsFindIndex (q : Song → Bool) (l : List Song) : ℤ :=
  jsFindIndexAux q l 0

/-- JS array subscripting: `undefined` (here `none`) outside the bounds. -/
def jsElem (l : List Song) (i : ℤ) : Option Song :=
  if 0 ≤ i then l.get? i.toNat else none

/-- `nextSong` (src/index.tsx lines 679-685): a no-op with no current song;
otherwise selects `playlist[(idx + 1) % playlist.length]` — JS `%` is the
truncated remainder `Int.tmod` — and sets the playing flag. -/
def nextSong (s : PlayerState) : PlayerState :=
  match s.currentSong with
  | none => s
  | some cur =>
    let idx := jsFindIndex (fun t => t.id == cur.id) s.playlist
    let nextIdx := (idx + 1).tmod (s.playlist.length : ℤ)
    { s with currentSong := jsElem s.playlist nextIdx, isPlaying := true }

/-- `prevSong` (src/index.tsx lines 687-693): selects
`playlist[(idx - 1 + playlist.length) % playlist.length]` and sets the
playing flag. -/
def prevSong (s : PlayerState) : PlayerState :=
  match s.currentSong with
  | none => s
  | some cur =>
    let idx := jsFindIndex (fun t => t.id == cur.id) s.playlist
    let prevIdx :=
      (idx - 1 + (s.playlist.length : ℤ)).tmod (s.playlist.length : ℤ)
    { s with currentSong := jsElem s.playlist prevIdx, isPlaying := true }

/-- Helper: on a playlist with pairwise-distinct ids, `findIndex` of the id
of the entry at position `i` yields exactly `j + i` when the scan starts at
`j`. -/
theorem jsFindIndexAux_of_get :
    ∀ (l : List Song) (i : ℕ) (t : Song) (j : ℤ),
      (l.map Song.id).Nodup → l.get? i = some t →
      jsFindIndexAux (fun x => x.id == t.id) l j = j + i := by
  intro l
  induction l with
  | nil => intro i t j _ hg; simp [List.get?] at hg
  | cons a l ih =>
    intro i t j hnd hg
    rw [List.map_cons, List.nodup_cons] at hnd
    cases i with
    | zero =>
      rw [List.get?] at hg
      obtain rfl : a = t := by injection hg
      simp [jsFindIndexAux]
    | succ i =>
      rw [List.get?] at hg
      have htl : t ∈ l := List.get?_mem hg
      have hne : a.id ≠ t.id := fun h =>
        hnd.1 (h ▸ List.mem_map_of_mem Song.id htl)
      have : (a.id == t.id) = false := beq_eq_false_iff_ne.mpr hne
      simp only [jsFindIndexAux, this, Bool.false_eq_true, if_false]
      rw [ih i t (j + 1) hnd.2 hg]
      push_cast
      ring

/-- Helper: `findIndex` yields −1 when no entry carries the sought id. -/
theorem jsFindIndexAux_of_absent :
    ∀ (l : List Song) (s : String) (j : ℤ), (∀ x ∈ l, x.id ≠ s) →
      jsFindIndexAux (fun x => x.id == s) l j = -1 := by
  intro l
  induction l with
  | nil => intro s j _; rfl
  | cons a l ih =>
    intro s j h
    have : (a.id == s) = false :=
      beq_eq_false_iff_ne.mpr (h a (List.mem_cons_self a l))
    simp only [jsFindIndexAux, this, Bool.false_eq_true, if_false]
    exact ih s (j + 1) fun x hx => h x (List.mem_cons_of_mem a hx)

/-- Helper: subscripting at a truncated remainder of a natural index is
ordinary list lookup at the natural remainder. -/
theorem jsElem_tmod_ofNat (l : List Song) (m : ℕ) :
    jsElem l (Int.tmod (m : ℤ) (l.length : ℤ)) = l.get? (m % l.length) := by
  rw [← Int.ofNat_tmod]
  simp only [jsElem, Int.toNat_natCast, if_pos (Int.natCast_nonneg _)]

/-- Helper: one application of `nextSong` from the entry at index `i` moves
to the entry at index `(i + 1) % length` and sets the playing flag. -/
theorem nextSong_eq (p : List Song) (b : Bool) (i : ℕ) (t : Song)
    (hnd : (p.map Song.id).Nodup) (hg : p.get? i = some t) :
    nextSong ⟨p, some t, b⟩ =
      ⟨p, p.get? ((i + 1) % p.length), true⟩ := by
  have hidx : jsFindIndex (fun x => x.id == t.id) p = (i : ℤ) := by
    simpa using jsFindIndexAux_of_get p i t 0 hnd hg
  simp only [nextSong, jsFindIndex] at hidx ⊢
  rw [hidx]
  have hcast : ((i : ℤ) + 1) = ((i + 1 : ℕ) : ℤ) := by push_cast; ring
  rw [hcast, jsElem_tmod_ofNat]

/-- Helper: one application of `prevSong` from the entry at index `i` moves
to the entry at index `(i + (length − 1)) % length` and sets the playing
flag. -/
theorem prevSong_eq (p : List Song) (b : Bool) (i : ℕ) (t : Song)
    (hnd : (p.map Song.id).Nodup) (hg : p.get? i = some t) :
    prevSong ⟨p, some t, b⟩ =
      ⟨p, p.get? ((i + (p.length - 1)) % p.length), true⟩ := by
  have hlen : i < p.length := by
    rcases List.get?_eq_some.mp hg with ⟨h, _⟩; exact h
  have hpos : 1 ≤ p.length := Nat.one_le_of_lt (Nat.lt_of_le_of_lt (Nat.zero_le i) hlen)
  have hidx : jsFindIndex (fun x => x.id == t.id) p = (i : ℤ) := by
    simpa using jsFindIndexAux_of_get p i t 0 hnd hg
  simp only [prevSong, jsFindIndex] at hidx ⊢
  rw [hidx]
  have hcast : ((i : ℤ) - 1 + (p.length : ℤ)) =
      ((i + (p.length - 1) : ℕ) : ℤ) := by
    push_cast [hpos]
    ring
  rw [hcast, jsElem_tmod_ofNat]

/-- Helper: `k` applications of `nextSong` from the entry at index `i` land
on the entry at index `(i + k) % length`. -/
theorem nextSong_iterate :
    ∀ (k : ℕ) (p : List Song) (b : Bool) (i : ℕ) (t : Song),
      (p.map Song.id).Nodup → p.get? i = some t →
      (nextSong^[k] ⟨p, some t, b⟩).currentSong =
        p.get? ((i + k) % p.length) := by
  intro k
  induction k with
  | zero =>
    intro p b i t _ hg
    have hlen : i < p.length := by
      rcases List.get?_eq_some.mp hg with ⟨h, _⟩; exact h
    simpa [Nat.mod_eq_of_lt hlen] using hg.symm
  | succ k ih =>
    intro p b i t hnd hg
    have hlen : i < p.length := by
      rcases List.get?_eq_some.mp hg with ⟨h, _⟩; exact h
    have hN : 0 < p.length := Nat.lt_of_le_of_lt (Nat.zero_le i) hlen
    rw [Function.iterate_succ_apply, nextSong_eq p b i t hnd hg]
    have hj : (i + 1) % p.length < p.length := Nat.mod_lt _ hN
    obtain ⟨t', hgt'⟩ : ∃ t', p.get? ((i + 1) % p.length) = some t' :=
      ⟨p.get ⟨(i + 1) % p.length, hj⟩, List.get?_eq_get hj⟩
    rw [hgt']
    rw [ih p true ((i + 1) % p.length) t' hnd hgt', Nat.mod_add_mod]
    have : i + 1 + k = i + (k + 1) := by omega
    rw [this]

/-- Helper: `k` applications of `prevSong` from the entry at index `i` land
on the entry at index `(i + k * (length − 1)) % length`. -/
theorem prevSong_iterate :
    ∀ (k : ℕ) (p : List Song) (b : Bool) (i : ℕ) (t : Song),
      (p.map Song.id).Nodup → p.get? i = some t →
      (prevSong^[k] ⟨p, some t, b⟩).currentSong =
        p.get? ((i + k * (p.length - 1)) % p.length) := by
  intro k
  induction k with
  | zero =>
    intro p b i t _ hg
    have hlen : i < p.length := by
      rcases List.get?_eq_some.mp hg with ⟨h, _⟩; exact h
    simpa [Nat.mod_eq_of_lt hlen] using hg.symm
  | succ k ih =>
    intro p b i t hnd hg
    have hlen : i < p.length := by
      rcases List.get?_eq_some.mp hg with ⟨h, _⟩; exact h
    have hN : 0 < p.length := Nat.lt_of_le_of_lt (Nat.zero_le i) hlen
    rw [Function.iterate_succ_apply, prevSong_eq p b i t hnd hg]
    have hj : (i + (p.length - 1)) % p.length < p.length := Nat.mod_lt _ hN
    obtain ⟨t', hgt'⟩ :
        ∃ t', p.get? ((i + (p.length - 1)) % p.length) = some t' :=
      ⟨p.get ⟨(i + (p.length - 1)) % p.length, hj⟩, List.get?_eq_get hj⟩
    rw [hgt']
    rw [ih p true ((i + (p.length - 1)) % p.length) t' hnd hgt',
      Nat.mod_add_mod]
    have : i + (p.length - 1) + k * (p.length - 1) =
        i + (k + 1) * (p.length - 1) := by ring
    rw [this]

/-- C7: for a library of N tracks with pairwise-distinct ids and a current
track that is in the library, applying `nextSong` N times returns to the
same starting track, and so does applying `prevSong` N times. -/
theorem next_prev_wrap (p : List Song) (t : Song) (b1 b2 : Bool)
    (hnd : (p.map Song.id).Nodup) (ht : t ∈ p) :
    (nextSong^[p.length] ⟨p, some t, b1⟩).currentSong = some t ∧
    (prevSong^[p.length] ⟨p, some t, b2⟩).currentSong = some t := by
  obtain ⟨⟨i, hi⟩, rfl⟩ := List.get_of_mem ht
  have hg : p.get? i = some (p.get ⟨i, hi⟩) := List.get?_eq_get hi
  constructor
  · rw [nextSong_iterate p.length p b1 i _ hnd hg, Nat.add_mod_right,
      Nat.mod_eq_of_lt hi, hg]
  · rw [prevSong_iterate p.length p b2 i _ hnd hg,
      Nat.add_mul_mod_self_left, Nat.mod_eq_of_lt hi, hg]

/-- Witness for C7 on a concrete two-track library. -/
theorem next_prev_wrap_witness :
    (nextSong^[2] ⟨[trackA, trackB], some trackA, false⟩).currentSong =
      some trackA ∧
    (prevSong^[2] ⟨[trackA, trackB], some trackA, false⟩).currentSong =
      some trackA :=
  next_prev_wrap [trackA, trackB] trackA false false
    (by simp [trackA, trackB]) (by simp)

/-- C10: with a non-empty library that no longer contains the current
track's id (for instance right after the current track was deleted),
`nextSong` selects the entry at index 0 and sets the playing flag, and
`prevSong` selects the entry at index `(N − 2) % N` and sets the playing
flag. -/
theorem next_prev_after_delete (p : List Song) (t : Song) (b : Bool)
    (hne : p ≠ []) (hid : t.id ∉ p.map Song.id) :
    (nextSong ⟨p, some t, b⟩).currentSong = p.get? 0 ∧
    (nextSong ⟨p, some t, b⟩).isPlaying = true ∧
    (prevSong ⟨p, some t, b⟩).currentSong =
      p.get? ((p.length - 2) % p.length) ∧
    (prevSong ⟨p, some t, b⟩).isPlaying = true := by
  have hN : 0 < p.length := List.length_pos.mpr hne
  have habs : ∀ x ∈ p, x.id ≠ t.id := by
    intro x hx h
    exact hid (h ▸ List.mem_map_of_mem Song.id hx)
  have hidx : jsFindIndex (fun x => x.id == t.id) p = -1 :=
    jsFindIndexAux_of_absent p t.id 0 habs
  refine ⟨?_, ?_, ?_, ?_⟩
  · simp only [nextSong, jsFindIndex] at hidx ⊢
    rw [hidx]
    norm_num [jsElem, Int.zero_tmod]
  · simp [nextSong]
  · simp only [prevSong, jsFindIndex] at hidx ⊢
    rw [hidx]
    rcases Nat.lt_or_ge p.length 2 with h2 | h2
    · have h1 : p.length = 1 := by omega
      rw [h1]
      norm_num [jsElem]
    · have hcast : (-1 - 1 + (p.length : ℤ)) = ((p.length - 2 : ℕ) : ℤ) := by
        push_cast [h2]
        ring
      rw [hcast, jsElem_tmod_ofNat]
  · simp [prevSong]

/-- Witness for C10: a two-track library whose entries do not carry the
current track's id. -/
theorem next_prev_after_delete_witness :
    (nextSong ⟨[trackB], some trackA, false⟩).currentSong =
      [trackB].get? 0 ∧
    (nextSong ⟨[trackB], some trackA, false⟩).isPlaying = true ∧
    (prevSong ⟨[trackB], some trackA, false⟩).currentSong =
      [trackB].get? (([trackB].length - 2) % [trackB].length) ∧
    (prevSong ⟨[trackB], some trackA, false⟩).isPlaying = true :=
  next_prev_after_delete [trackB] trackA false (by simp)
    (by simp [trackA, trackB])

/-! ## Track persistence (src/index.tsx lines 36-115)

The IndexedDB object store `songs` is keyed by `id` (`keyPath: 'id'`), so a
`put` overwrites the record with the same id or inserts a new one.
`saveSongToDB` stores `{ ...song, src: '', fileBlob: blob }`;
`updateSongInDB` stores `{ ...song, src: '' }` and only runs when the song
carries a binary payload; `loadSongsFromDB` maps every stored record to
`{ ...s, src: URL.createObjectURL(s.fileBlob), source: 'local',
fileBlob: s.fileBlob }`. -/

/-- An id-keyed `put` into the object store (src/index.tsx line 61):
overwrite the record carrying the same id, or append. -/
def dbPut (db : List Song) (rec : Song) : List Song :=
  if db.any (fun r => r.id == rec.id) then
    db.map fun r => if r.id == rec.id then rec else r
  else db ++ [rec]

/-- `saveSongToDB` (src/index.tsx lines 55-66): the stored record carries
the binary payload and an empty `src`. -/
def saveSongToDB (db : List Song) (song : Song) (blob : Blob) : List Song :=
  dbPut db { song with src := "", fileBlob := some blob }

/-- `updateSongInDB` (src/index.tsx lines 68-79): a no-op without a stored
binary payload, otherwise a `put` of the song with `src` emptied. -/
def updateSongInDB (db : List Song) (song : Song) : List Song :=
  match song.fileBlob with
  | none => db
  | some _ => dbPut db { song with src := "" }

/-- A fresh transient locator, modelling `URL.createObjectURL` for the
`n`-th loaded record (src/index.tsx line 104). -/
def freshLocator (n : ℕ) : String := "blob:" ++ toString n

/-- The body of `loadSongsFromDB` (src/index.tsx lines 100-108): each stored
record regains a freshly created locator and is tagged `source: 'local'`,
keeping its binary payload; `n` numbers the locators. -/
def loadSongsAux : ℕ → List Song → List Song
  | _, [] => []
  | n, s :: rest =>
    { s with src := freshLocator n, source := some Source.locl } ::
      loadSongsAux (n + 1) rest

/-- `loadSongsFromDB` (src/index.tsx lines 93-115). -/
def loadSongsFromDB (db : List Song) : List Song := loadSongsAux 0 db

/-- Helper: a freshly generated locator is never the empty string. -/
theorem freshLocator_ne_empty (n : ℕ) : freshLocator n ≠ "" := by
  intro h
  have hlen := congrArg String.length h
  rw [freshLocator, String.length_append] at hlen
  have h5 : ("blob:" : String).length = 5 := rfl
  have h0 : ("" : String).length = 0 := rfl
  omega

/-- Helper: a `put` of a record whose id is not yet in the store appends
it. -/
theorem dbPut_of_fresh (db : List Song) (rec : Song)
    (h : rec.id ∉ db.map Song.id) : dbPut db rec = db ++ [rec] := by
  have : db.any (fun r => r.id == rec.id) = false := by
    rw [List.any_eq_false]
    intro r hr hbeq
    exact h (eq_of_beq hbeq ▸ List.mem_map_of_mem Song.id hr)
  simp [dbPut, this]

/-- Helper: loading distributes over appending to the store, with the
locator counter advanced past the prefix. -/
theorem loadSongsAux_append (l1 : List Song) :
    ∀ (n : ℕ) (l2 : List Song),
      loadSongsAux n (l1 ++ l2) =
        loadSongsAux n l1 ++ loadSongsAux (n + l1.length) l2 := by
  induction l1 with
  | nil => intro n l2; simp [loadSongsAux]
  | cons s rest ih =>
    intro n l2
    simp only [List.cons_append, loadSongsAux, List.append_eq]
    rw [ih (n + 1) l2]
    simp only [List.length_cons]
    have : n + 1 + rest.length = n + (rest.length + 1) := by omega
    rw [this]

/-- Helper: every record written by `dbPut` either is the written record or
comes from the previous store contents. -/
theorem dbPut_mem (db : List Song) (rec r : Song) (hr : r ∈ dbPut db rec) :
    r = rec ∨ r ∈ db := by
  unfold dbPut at hr
  by_cases h : db.any (fun x => x.id == rec.id) = true
  · rw [if_pos h] at hr
    obtain ⟨x, hx, hxe⟩ := List.mem_map.mp hr
    by_cases hid : (x.id == rec.id) = true
    · left; rw [if_pos hid] at hxe; exact hxe.symm
    · right
      rw [if_neg hid] at hxe
      exact hxe ▸ hx
  · rw [if_neg h] at hr
    rcases List.mem_append.mp hr with hin | hin
    · right; exact hin
    · left; simpa using hin

/-- C8 counterexample: the reloaded track does not keep an arbitrary saved
origin — `loadSongsFromDB` tags every loaded record `'local'`, so a track
saved with origin `'ai'` comes back with origin `'local'`, falsifying the
claim's "identical … origin" for the store's general `put`. -/
theorem roundtrip_counterexample :
    ((loadSongsFromDB (saveSongToDB []
        { trackA with source := some Source.ai } ⟨[1, 2, 3]⟩)).map
      Song.source) = [some Source.locl] ∧
    some Source.locl ≠ some Source.ai := by
  constructor
  · simp [loadSongsFromDB, saveSongToDB, dbPut, loadSongsAux]
  · simp

/-- C8 amended: a track saved with a binary payload under a fresh id and
reloaded via `loadSongsFromDB` keeps its title, artist, album, cover,
lyrics and payload, gains a freshly generated non-empty locator, and has
its origin set to `'local'` — hence identical origin exactly for
locally-uploaded tracks, which is every track the app passes to the store;
and the durably stored record always has an empty `src`, both on save and
on metadata update. -/
theorem roundtrip_persistence (db : List Song) (song : Song) (blob : Blob)
    (h : song.id ∉ db.map Song.id) :
    saveSongToDB db song blob =
      db ++ [{ song with src := "", fileBlob := some blob }] ∧
    (loadSongsFromDB (saveSongToDB db song blob)).getLast? =
      some { song with
              src := freshLocator db.length
              source := some Source.locl
              fileBlob := some blob } ∧
    freshLocator db.length ≠ "" ∧
    (song.source = some Source.locl →
      (loadSongsFromDB (saveSongToDB db song blob)).getLast? =
        some { song with
                src := freshLocator db.length
                fileBlob := some blob }) ∧
    ((∀ r ∈ db, r.src = "") →
      (∀ r ∈ saveSongToDB db song blob, r.src = "") ∧
      (∀ r ∈ updateSongInDB db song, r.src = "")) := by
  have hsave : saveSongToDB db song blob =
      db ++ [{ song with src := "", fileBlob := some blob }] :=
    dbPut_of_fresh db _ h
  have hload : (loadSongsFromDB (saveSongToDB db song blob)).getLast? =
      some { song with
              src := freshLocator db.length
              source := some Source.locl
              fileBlob := some blob } := by
    rw [hsave, loadSongsFromDB, loadSongsAux_append, Nat.zero_add]
    simp only [loadSongsAux]
    rw [List.getLast?_concat]
  refine ⟨hsave, hload, freshLocator_ne_empty db.length, ?_, ?_⟩
  · intro hlocal
    rw [hload, ← hlocal]
  · intro hall
    constructor
    · intro r hr
      rcases dbPut_mem db _ r hr with rfl | hin
      · rfl
      · exact hall r hin
    · intro r hr
      unfold updateSongInDB at hr
      cases hb : song.fileBlob with
      | none => rw [hb] at hr; exact hall r hr
      | some b =>
        rw [hb] at hr
        rcases dbPut_mem db _ r hr with rfl | hin
        · rfl
        · exact hall r hin

/-- Witness for C8's amended theorem: `trackA` saved into an empty store
with a concrete payload. -/
theorem roundtrip_persistence_witness :
    (loadSongsFromDB (saveSongToDB [] trackA ⟨[7]⟩)).getLast? =
      some { trackA with
              src := freshLocator 0
              source := some Source.locl
              fileBlob := some ⟨[7]⟩ } ∧
    freshLocator 0 ≠ "" :=
  ⟨((roundtrip_persistence [] trackA ⟨[7]⟩ (by simp)).2.1),
   (roundtrip_persistence [] trackA ⟨[7]⟩ (by simp)).2.2.1⟩

/-! ## Playing a track (src/index.tsx lines 651-677)

`playSong(song)` first checks for a search result with no usable locator
(`(!song.src || song.src.trim() === '') && song.source === 'searched'`) and
in that case only raises an error toast and returns.  Otherwise it clears
the crossfading flag, toggles play/pause when the song is already current,
and else makes the song current, starts playing, and possibly switches the
view. -/

/-- The view identifier (src/index.tsx line 200). -/
inductive View where
  | list
  | player
  | landing
  | aiStudio
  | lyrics
  | zenHome
  | zenList
  | youtube
  deriving DecidableEq, Repr

/-- Toast kind (src/index.tsx line 238). -/
inductive NotifType where
  | success
  | error
  deriving DecidableEq, Repr

/-- A toast, `{msg, type}` (src/index.tsx line 238). -/
structure Notif where
  msg : String
  type : NotifType
  deriving DecidableEq, Repr

/-- The transport slice touched by `playSong`. -/
structure TransportState where
  playlist : List Song
  currentSong : Option Song
  isPlaying : Bool
  view : View
  isCrossfading : Bool
  toast : Option Notif
  deriving DecidableEq, Repr

/-- `playSong` (src/index.tsx lines 651-677). -/
def playSong (s : TransportState) (song : Song) : TransportState :=
  if (song.src = "" ∨ song.src.trim = "") ∧ song.source = some Source.searched
  then
    { s with toast := some { msg := "No playable link found. Try downloading it.", type := NotifType.error } }
  else
    let s1 := { s with isCrossfading := false }
    if s1.currentSong.map Song.id = some song.id then
      let s2 := { s1 with isPlaying := !s1.isPlaying }
      if s2.view = View.list then { s2 with view := View.player } else s2
    else
      let s2 := { s1 with currentSong := some song, isPlaying := true }
      if s2.view ≠ View.aiStudio ∧ s2.view ≠ View.lyrics ∧
          s2.view ≠ View.zenHome ∧ s2.view ≠ View.zenList ∧
          s2.view ≠ View.youtube
      then { s2 with view := View.player } else s2

/-- C9: playing a track whose locator is unresolved (empty or blank `src`)
and whose origin is an external search result fails the transition with a
user-visible error toast and leaves every other piece of the transport
state — current track, playing flag, view, crossfade flag — unchanged. -/
theorem play_unresolved_locator (s : TransportState) (song : Song)
    (hsrc : song.src = "" ∨ song.src.trim = "")
    (hsearched : song.source = some Source.searched) :
    playSong s song =
      { s with toast := some { msg := "No playable link found. Try downloading it.", type := NotifType.error } } ∧
    (playSong s song).currentSong = s.currentSong ∧
    (playSong s song).isPlaying = s.isPlaying ∧
    (playSong s song).view = s.view ∧
    (playSong s song).isCrossfading = s.isCrossfading ∧
    (playSong s song).toast =
      some { msg := "No playable link found. Try downloading it.", type := NotifType.error } := by
  have h : playSong s song =
      { s with toast := some { msg := "No playable link found. Try downloading it.", type := NotifType.error } } := by
    unfold playSong
    rw [if_pos ⟨hsrc, hsearched⟩]
  exact ⟨h, by rw [h], by rw [h], by rw [h], by rw [h], by rw [h]⟩

/-- Witness for C9: an externally-searched track with a blank locator
against a concrete transport state. -/
theorem play_unresolved_locator_witness :
    (playSong
        { playlist := [trackA], currentSong := some trackA
          isPlaying := true, view := View.player, isCrossfading := false
          toast := none }
        { trackB with src := "", source := some Source.searched
        }).currentSong = some trackA ∧
    (playSong
        { playlist := [trackA], currentSong := some trackA
          isPlaying := true, view := View.player, isCrossfading := false
          toast := none }
        { trackB with src := "", source := some Source.searched
        }).isPlaying = true ∧
    (playSong
        { playlist := [trackA], currentSong := some trackA
          isPlaying := true, view := View.player, isCrossfading := false
          toast := none }
        { trackB with src := "", source := some Source.searched
        }).toast =
      some { msg := "No playable link found. Try downloading it.", type := NotifType.error } := by
  have h := play_unresolved_locator
    { playlist := [trackA], currentSong := some trackA
      isPlaying := true, view := View.player, isCrossfading := false
      toast := none }
    { trackB with src := "", source := some Source.searched }
    (Or.inl rfl) rfl
  exact ⟨h.2.1, h.2.2.1, h.2.2.2.2.2⟩

end BeautyMusic
